import Mathlib

/-!
Verification development for the albert_datetime_steven plugin
(src/__init__.py): a shallow embedding of its timestamp codecs,
resolution inference and query dispatch, with theorems checking the
natural-language specification against the code.

Conventions of the embedding:
* Python integers are `Int`; Python `//` and `%` (floor division and
  floor modulo) are `Int.fdiv` and `Int.fmod`, wrapped as `pydiv` and
  `pymod`.
* A timezone-aware `datetime` with `microsecond = 0` is represented by
  the integer count of seconds of its instant since the Unix epoch
  (1970-01-01T00:00:00 UTC); this is exact for the whole representable
  range (years 1..9999, |seconds| < 2^53), so `int(dt.timestamp())`
  and `int((dt - NFTS_EPOCH).total_seconds())` are the corresponding
  integer differences with no floating-point error.
* Fallible Python code (exceptions) is `Except String`; an uncaught
  exception escaping `handleQuery` is a final `.error`.
-/

deriving instance DecidableEq for Except

namespace DatetimeSteven

/-- Python floor division `a // b` (rounds toward negative infinity). -/
def pydiv (a b : Int) : Int := Int.fdiv a b

/-- Python floor modulo `a % b` (sign of the divisor). -/
def pymod (a b : Int) : Int := Int.fmod a b

/-- Leap year of the proleptic Gregorian calendar used by Python `datetime`. -/
def isLeapYear (y : Int) : Bool := y % 4 == 0 && (y % 100 != 0 || y % 400 == 0)

/-- Length of month `m` of year `y` (Python `calendar` rules). -/
def daysInMonth (y m : Int) : Int :=
  if m = 2 then (if isLeapYear y then 29 else 28)
  else if m = 4 ∨ m = 6 ∨ m = 9 ∨ m = 11 then 30
  else 31

/-- Days from 1970-01-01 to the civil date `y-m-d` in the proleptic
Gregorian calendar (standard days-from-civil algorithm). -/
def daysFromCivil (y m d : Int) : Int :=
  let y2 := if m ≤ 2 then y - 1 else y
  let era := Int.fdiv y2 400
  let yoe := y2 - era * 400
  let mp := Int.fmod (m + 9) 12
  let doy := Int.fdiv (153 * mp + 2) 5 + d - 1
  let doe := yoe * 365 + Int.fdiv yoe 4 - Int.fdiv yoe 100 + doy
  era * 146097 + doe - 719468

/-- Seconds since the Unix epoch of the UTC calendar instant
`y-m-d h:mi:s`. -/
def toUnixSeconds (y m d h mi s : Int) : Int :=
  daysFromCivil y m d * 86400 + h * 3600 + mi * 60 + s

/-- Source constant `UNIX_EPOCH = datetime.fromtimestamp(0, tz=timezone.utc)`. -/
def UNIX_EPOCH : Int := toUnixSeconds 1970 1 1 0 0 0

/-- Smallest instant representable by Python `datetime`
(0001-01-01T00:00:00 UTC), in Unix seconds. -/
def minDatetimeSeconds : Int := toUnixSeconds 1 1 1 0 0 0

/-- Largest whole-second instant representable by Python `datetime`
(9999-12-31T23:59:59 UTC), in Unix seconds. -/
def maxDatetimeSeconds : Int := toUnixSeconds 9999 12 31 23 59 59

/-- Whether the instant `s` (Unix seconds) is representable as a Python
`datetime`: `datetime.fromtimestamp(s, tz=timezone.utc)` and
`NFTS_EPOCH + timedelta(seconds=...)` succeed exactly on this range and
raise `ValueError` / `OverflowError` outside it. -/
def datetimeRangeOk (s : Int) : Bool :=
  decide (minDatetimeSeconds ≤ s) && decide (s ≤ maxDatetimeSeconds)

/-- Source constant `UNITS = ['seconds', 'milliseconds', 'microseconds', 'nanoseconds']`. -/
def UNITS : List String := ["seconds", "milliseconds", "microseconds", "nanoseconds"]

/-- Source constant `UNITS_ABBREV = ['s', 'ms', 'us', 'ns']`. -/
def UNITS_ABBREV : List String := ["s", "ms", "us", "ns"]

/-- One iteration of the loop body of `guess_unix_unit`: at `power`,
compute `seconds = timestamp // 10**power`; succeed when
`datetime.fromtimestamp(seconds, tz=timezone.utc)` is constructible and
the result is `<= datetime(max_year, 12, 31, tzinfo=timezone.utc)` or
`power == 9`. -/
def guessAccepts (timestamp maxYear : Int) (power : Nat) : Bool :=
  let seconds := pydiv timestamp (10 ^ power)
  datetimeRangeOk seconds &&
    (decide (seconds ≤ toUnixSeconds maxYear 12 31 0 0 0) || power == 9)

/-- Source function `guess_unix_unit(timestamp, max_year)` (src lines 35-50): the loop
`for power in 0, 3, 6, 9` unrolled; construction failures are caught and
mean "try the next power"; if no power is accepted the function raises
`ValueError('datetime value out of range')`. -/
def guess_unix_unit (timestamp maxYear : Int) : Except String Nat :=
  if guessAccepts timestamp maxYear 0 then .ok 0
  else if guessAccepts timestamp maxYear 3 then .ok 3
  else if guessAccepts timestamp maxYear 6 then .ok 6
  else if guessAccepts timestamp maxYear 9 then .ok 9
  else .error "datetime value out of range"

/-- Source function `parse_unix_timestamp(timestamp, power)` (src lines 53-58): returns
the instant `datetime.fromtimestamp(timestamp // 10**power, utc)`, the
sub-second value `10**(9 - power) * (timestamp % 10**power)` and the
unit name `UNITS[power // 3]`; raises when the instant is out of the
`datetime` range. -/
def parse_unix_timestamp (timestamp : Int) (power : Nat) : Except String (Int × Int × String) :=
  let seconds := pydiv timestamp (10 ^ power)
  if datetimeRangeOk seconds then
    let nanoseconds := 10 ^ (9 - power) * pymod timestamp (10 ^ power)
    .ok (seconds, nanoseconds, UNITS.getD (power / 3) "")
  else .error "ValueError: date value out of range"

/-- Source function `to_unix_timestamp(dt, nanoseconds)` (src lines 72-73):
`int(dt.timestamp()) * 10**9 + nanoseconds`; `int(dt.timestamp())` is
exactly the instant's integer Unix seconds (see module conventions). -/
def to_unix_timestamp (dt nanoseconds : Int) : Int :=
  dt * 10 ^ 9 + nanoseconds

/-- Source constant `NFTS_EPOCH = datetime(1601, 1, 1, tzinfo=timezone.utc)` (the
source's spelling), in Unix seconds. -/
def NFTS_EPOCH : Int := toUnixSeconds 1601 1 1 0 0 0

/-- Source function `parse_ntfs_timestamp(timestamp)` (src lines 79-83):
`ticks = timestamp % 10**7`, `seconds = timestamp // 10**7`,
`dt = NFTS_EPOCH + timedelta(seconds=seconds)`; the addition raises
`OverflowError` when the result leaves the `datetime` range. -/
def parse_ntfs_timestamp (timestamp : Int) : Except String (Int × Int) :=
  let ticks := pymod timestamp (10 ^ 7)
  let seconds := pydiv timestamp (10 ^ 7)
  let dt := NFTS_EPOCH + seconds
  if datetimeRangeOk dt then .ok (dt, ticks)
  else .error "OverflowError: date value out of range"

/-- Source function `to_ntfs_timestamp(dt, nanoseconds)` (src lines 94-95):
`int((dt - NFTS_EPOCH).total_seconds()) * 10**7 + nanoseconds // 100`. -/
def to_ntfs_timestamp (dt nanoseconds : Int) : Int :=
  (dt - NFTS_EPOCH) * 10 ^ 7 + pydiv nanoseconds 100

/-- Statement-level predicate for `guess_unix_unit` claims: at `power`,
`timestamp // 10**power` is constructible as a `datetime` and the
decoded instant is at or before the default bound
`datetime(9999, 12, 31, tzinfo=timezone.utc)`. -/
def decodedOk (timestamp : Int) (power : Nat) : Bool :=
  datetimeRangeOk (pydiv timestamp (10 ^ power)) &&
    decide (pydiv timestamp (10 ^ power) ≤ toUnixSeconds 9999 12 31 0 0 0)

/-- The character class matched by the regex escape for whitespace,
restricted to ASCII (the embedding does not model non-ASCII whitespace,
which no claim involves). -/
def isSpace (c : Char) : Bool :=
  c == ' ' || c == '\t' || c == '\n' || c == '\r' || c == '\x0b' || c == '\x0c'

/-- Case-insensitive character comparison (the `re.IGNORECASE` flag). -/
def charEqCI (p c : Char) : Bool := p.toLower == c.toLower

/-- Match a literal pattern case-insensitively at the head of the input,
returning the remainder. -/
def stripCI : List Char → List Char → Option (List Char)
  | [], cs => some cs
  | _ :: _, [] => none
  | p :: ps, c :: cs => if charEqCI p c then stripCI ps cs else none

/-- Maximal-munch scan of the digit run at the head of the input (the
regex digit class, restricted to ASCII digits: the embedding does not
model non-ASCII Unicode digits, which no claim involves). -/
def takeDigits : List Char → List Char × List Char
  | [] => ([], [])
  | c :: cs =>
    if c.isDigit then
      let r := takeDigits cs
      (c :: r.1, r.2)
    else ([], c :: cs)

/-- Value of a digit run, as Python `int` computes it. -/
def digitsToNat (ds : List Char) : Nat :=
  ds.foldl (fun a c => 10 * a + (c.toNat - 48)) 0

/-- One-or-more whitespace characters, consumed greedily (equivalent to
the backtracking semantics here, since no continuation of the source
regexes can match a whitespace character). -/
def spaces1 : List Char → Option (List Char)
  | [] => none
  | c :: cs => if isSpace c then some (cs.dropWhile isSpace) else none

/-- The part after the keyword in the `parse_epoch` NTFS regex
`(?:NT|NTFS|LDAP)\s+(\d+)$`: whitespace, a digit group, end of string. -/
def ntfsKeywordTail (cs : List Char) : Option Int := do
  let r ← spaces1 cs
  let (ds, rest) := takeDigits r
  if ds.isEmpty then none
  else if rest.isEmpty then some ((digitsToNat ds : Nat) : Int)
  else none

/-- Model of `re.match(r'(?:NT|NTFS|LDAP)\s+(\d+)$', query_str, re.IGNORECASE)`
(src line 166), returning the captured integer. The three keyword
alternatives are tried with full backtracking, so the match succeeds when
any alternative does. -/
def ntfsMatch (cs : List Char) : Option Int :=
  match (stripCI ['N', 'T'] cs).bind ntfsKeywordTail with
  | some v => some v
  | none =>
    match (stripCI ['N', 'T', 'F', 'S'] cs).bind ntfsKeywordTail with
    | some v => some v
    | none => (stripCI ['L', 'D', 'A', 'P'] cs).bind ntfsKeywordTail

/-- The optional unit suffix of the bare-integer regex: after the digit
group and optional whitespace, the remainder must be empty or exactly one
of `UNITS_ABBREV`; the captured suffix determines
`power = 3 * UNITS_ABBREV.index(unit_abbrev)` (src line 185). -/
def unixUnitPower : List Char → Option (Option Nat)
  | [] => some none
  | ['s'] => some (some 0)
  | ['m', 's'] => some (some 3)
  | ['u', 's'] => some (some 6)
  | ['n', 's'] => some (some 9)
  | _ => none

/-- Model of `re.match(r'(\d+)\s*(s|ms|us|ns)?$', query_str)` (src line 180),
returning the captured integer and the power encoded by the suffix
(`none` when no suffix was given). Maximal munch of the digit run is
equivalent to the backtracking semantics: a shorter run leaves a digit
that no continuation can absorb. -/
def unixMatch (cs : List Char) : Option (Int × Option Nat) :=
  let (ds, rest) := takeDigits cs
  if ds.isEmpty then none
  else (unixUnitPower (rest.dropWhile isSpace)).map fun p => (((digitsToNat ds : Nat) : Int), p)

/-- Exactly two digits (the `\d{2}` groups of `RE_DATETIME`). -/
def take2 : List Char → Option (Nat × List Char)
  | a :: b :: r =>
    if a.isDigit && b.isDigit then some (10 * (a.toNat - 48) + (b.toNat - 48), r)
    else none
  | _ => none

/-- A single literal character. -/
def expectChar (c : Char) : List Char → Option (List Char)
  | x :: r => if x == c then some r else none
  | [] => none

/-- The mutually exclusive sub-second captures of `RE_DATETIME`:
`(?P<nanosecond>\d{9})` or `(?P<ntfs_ticks>\d{7})`. -/
inductive SubsecGroup where
  | nanosecond (v : Nat)
  | ntfsTicks (v : Nat)
deriving DecidableEq

/-- The timezone captures of `RE_DATETIME`: a fixed `±HH[:]MM` offset or
a named zone. -/
inductive TzGroup where
  | fixedOff (neg : Bool) (hours minutes : Nat)
  | named (zone : List Char)
deriving DecidableEq

/-- The group dictionary produced by a successful `RE_DATETIME` match. -/
structure DtMatch where
  year : Nat
  month : Nat
  day : Nat
  time : Option (Nat × Nat × Nat)
  subsec : Option SubsecGroup
  tz : Option TzGroup
deriving DecidableEq

/-- The date part of `RE_DATETIME`:
`(?P<year>\d{1,4})-(?P<month>\d{2})-(?P<day>\d{2})`. The year capture is
the full leading digit run when its length is 1..4 — a shorter capture
would have to be followed by `-` but is followed by a digit, and a run of
5 or more digits cannot match at all. -/
def dateGroups (cs : List Char) : Option (Nat × Nat × Nat × List Char) := do
  let (ys, r) := takeDigits cs
  if ys.length = 0 ∨ 4 < ys.length then none
  else do
    let r1 ← expectChar '-' r
    let (mo, r2) ← take2 r1
    let r3 ← expectChar '-' r2
    let (dy, r4) ← take2 r3
    some (digitsToNat ys, mo, dy, r4)

/-- The optional sub-second group `(:(?:(\d{9})|(\d{7})))?` after the
seconds capture: a colon followed by at least 9 digits captures 9 of them
as nanoseconds; otherwise a colon followed by at least 7 digits captures
7 of them as NTFS ticks; otherwise the group matches empty and consumes
nothing. -/
def subsecGroup (cs : List Char) : Option SubsecGroup × List Char :=
  match cs with
  | ':' :: r =>
    let ds := (takeDigits r).1
    if 9 ≤ ds.length then (some (.nanosecond (digitsToNat (ds.take 9))), r.drop 9)
    else if 7 ≤ ds.length then (some (.ntfsTicks (digitsToNat (ds.take 7))), r.drop 7)
    else (none, ':' :: r)
  | _ => (none, cs)

/-- The optional time group of `RE_DATETIME`:
`(?:\s+(?P<hour>\d{2}):(?P<minute>\d{2}):(?P<second>\d{2})(subsec)?)?`.
Failure anywhere inside makes the whole group match empty, consuming
nothing. -/
def timeGroup (cs : List Char) : Option ((Nat × Nat × Nat) × (Option SubsecGroup × List Char)) := do
  let r ← spaces1 cs
  let (h, r1) ← take2 r
  let r2 ← expectChar ':' r1
  let (mi, r3) ← take2 r2
  let r4 ← expectChar ':' r3
  let (se, r5) ← take2 r4
  some ((h, mi, se), subsecGroup r5)

/-- Modelled from the spec: the named-zone alternation interpolated into
`RE_DATETIME` is `pytz.all_timezones`, data shipped with the third-party
pytz package and not part of src/. The spec (§4.4) describes it as the
closed set of recognized IANA zone names, matched case-insensitively in
table order; we embed a representative table. Every IANA name begins with
an ASCII letter, and no theorem below depends on the table's contents:
every input a theorem evaluates either carries no timezone text at all or
a fixed ±HHMM offset, which `RE_DATETIME` tries before the named
alternatives. (Names are matched as literals; the handful of pytz names
containing a regex metacharacter are likewise never involved.) -/
def zoneNames : List (List Char) :=
  ["Africa/Cairo", "America/Chicago", "America/Los_Angeles", "America/New_York",
   "Asia/Kolkata", "Asia/Shanghai", "Asia/Tokyo", "Australia/Melbourne",
   "Australia/Sydney", "Europe/Berlin", "Europe/London", "Europe/Paris",
   "GMT", "UTC"].map String.data

/-- First table entry matching case-insensitively at the head of the
input (the regex alternation tries the interpolated names in order). -/
def namedZoneFrom : List (List Char) → List Char → Option (List Char × List Char)
  | [], _ => none
  | z :: zs, cs =>
    match stripCI z cs with
    | some r => some (z, r)
    | none => namedZoneFrom zs cs

/-- The fixed-offset alternative
`(?P<tz_fixed_sign>[+-])(?P<tz_fixed_hours>\d{2}):?(?P<tz_fixed_minutes>\d{2})`.
When the optional colon is present but not followed by two digits the
whole alternative fails, exactly as the backtracking regex does. -/
def fixedOffsetGroup (cs : List Char) : Option ((Bool × Nat × Nat) × List Char) :=
  match cs with
  | c :: r =>
    if c == '+' || c == '-' then
      (take2 r).bind fun p =>
        match expectChar ':' p.2 with
        | some r2 => (take2 r2).map fun p2 => ((c == '-', p.1, p2.1), p2.2)
        | none => (take2 p.2).map fun p2 => ((c == '-', p.1, p2.1), p2.2)
    else none
  | [] => none

/-- The optional timezone group of `RE_DATETIME`:
`(?:\s+((fixed)|(?P<tz_named>...)))?`; the fixed alternative is tried
before the named table, and failure of both makes the group match empty,
consuming nothing. -/
def tzGroupOf (cs : List Char) : Option TzGroup × List Char :=
  match spaces1 cs with
  | some r =>
    match fixedOffsetGroup r with
    | some (f, r2) => (some (.fixedOff f.1 f.2.1 f.2.2), r2)
    | none =>
      match namedZoneFrom zoneNames r with
      | some (z, r2) => (some (.named z), r2)
      | none => (none, cs)
  | none => (none, cs)

/-- Model of `Plugin.RE_DATETIME.match(query_str)` (src lines 208-221, applied via
`re.match` at line 225): an unanchored prefix match — the date part must
match, the time and timezone groups are optional, and any input left over
after the matched prefix is not consumed. -/
def reDatetimeMatch (cs : List Char) : Option DtMatch :=
  match dateGroups cs with
  | none => none
  | some (y, mo, dy, r) =>
    match timeGroup r with
    | some (t, sub, r2) =>
      some { year := y, month := mo, day := dy, time := some t, subsec := sub,
             tz := (tzGroupOf r2).1 }
    | none =>
      some { year := y, month := mo, day := dy, time := none, subsec := none,
             tz := (tzGroupOf r).1 }

/-- Model of `datetime(year, month, day)` (src lines 230-234): naive wall-clock
midnight of the given civil date, as seconds since the Unix epoch of the
same UTC fields; raises `ValueError` outside the calendar range, with the
year, month and day checks in Python's order. -/
def datetimeCtor (y mo dy : Int) : Except String Int :=
  if 1 ≤ y ∧ y ≤ 9999 then
    if 1 ≤ mo ∧ mo ≤ 12 then
      if 1 ≤ dy ∧ dy ≤ daysInMonth y mo then .ok (toUnixSeconds y mo dy 0 0 0)
      else .error "ValueError: day is out of range for month"
    else .error "ValueError: month must be in 1..12"
  else .error "ValueError: year is out of range"

/-- Model of `dt.replace(hour=..., minute=..., second=...)` (src lines 236-239):
validates the fields exactly as `datetime.replace` does and adds the
time of day to the wall-clock midnight. -/
def timeReplace (wall h mi se : Int) : Except String Int :=
  if 0 ≤ h ∧ h ≤ 23 then
    if 0 ≤ mi ∧ mi ≤ 59 then
      if 0 ≤ se ∧ se ≤ 59 then .ok (wall + h * 3600 + mi * 60 + se)
      else .error "ValueError: second must be in 0..59"
    else .error "ValueError: minute must be in 0..59"
  else .error "ValueError: hour must be in 0..23"

/-- The observable outcome of one query, abstracting the `Item` lists of
`add_items`: which branch handled the input and the `(instant,
sub-second)` data every emitted representation is computed from. A named
zone's instant is carried uninterpreted (the zone database is pytz data,
external to src/). -/
inductive QueryOutcome where
  | notHandled
  | epochNtfs (dt ticks : Int)
  | epochUnix (dt nanoseconds : Int) (unit : String)
  | epochError (msg : String)
  | dateInstant (dt nanoseconds : Int) (ticksForm : Bool)
  | dateNamed (zone : List Char) (wall nanoseconds : Int) (ticksForm : Bool)
deriving DecidableEq

/-- Source method `Plugin.parse_epoch(query_str)` (src lines 164-206): try the NTFS
regex, then the bare/suffixed-integer regex; `none` models `return
False`. `ValueError` and `OverflowError` raised by the conversions are
caught and shown as a single error item (`epochError`). -/
def parse_epoch (cs : List Char) : Option QueryOutcome :=
  match ntfsMatch cs with
  | some timestamp =>
    match parse_ntfs_timestamp timestamp with
    | .ok (dt, ticks) => some (.epochNtfs dt ticks)
    | .error e => some (.epochError e)
  | none =>
    match unixMatch cs with
    | some (timestamp, punit) =>
      match (match punit with
             | some p => Except.ok p
             | none => guess_unix_unit timestamp 9999) with
      | .ok power =>
        match parse_unix_timestamp timestamp power with
        | .ok (dt, ns, unit) => some (.epochUnix dt ns unit)
        | .error e => some (.epochError e)
      | .error e => some (.epochError e)
    | none => none

/-- Source method `Plugin.parse_datetime(query_str)` (src lines 224-275).
`localOffset` is the process-wide local timezone's UTC offset (seconds
east) applicable at the parsed wall time: in the fixed-offset branch the
source calls `.astimezone(...)` on a *naive* datetime, which presumes the
wall-clock fields lie in the process's local zone, so the resulting
instant is `wall - localOffset` and the literal offset only becomes the
display tzinfo. With no timezone group the naive datetime gets
`tzinfo=timezone.utc` via `replace`, so the instant is the wall time
itself. No exception handler exists in this method: a `ValueError` from
`datetime(...)` or `.replace(...)` propagates (`Except.error`). -/
def parse_datetime (cs : List Char) (localOffset : Int) : Except String (Option QueryOutcome) :=
  match reDatetimeMatch cs with
  | none => .ok none
  | some g => do
    let wall0 ← datetimeCtor (g.year : Int) (g.month : Int) (g.day : Int)
    let wall ← match g.time with
      | some (h, mi, se) => timeReplace wall0 (h : Int) (mi : Int) (se : Int)
      | none => Except.ok wall0
    let nanoseconds : Int := match g.subsec with
      | some (.nanosecond v) => (v : Int)
      | some (.ntfsTicks v) => (v : Int) * 100
      | none => 0
    let ticksForm : Bool := match g.subsec with
      | some (.ntfsTicks _) => true
      | _ => false
    match g.tz with
    | some (.fixedOff _ _ _) =>
      Except.ok (some (.dateInstant (wall - localOffset) nanoseconds ticksForm))
    | some (.named z) => Except.ok (some (.dateNamed z wall nanoseconds ticksForm))
    | none => Except.ok (some (.dateInstant wall nanoseconds ticksForm))

/-- Python `str.strip()` on the query string (src line 278), restricted
to ASCII whitespace. -/
def stripQuery (cs : List Char) : List Char :=
  ((cs.dropWhile isSpace).reverse.dropWhile isSpace).reverse

/-- Source method `Plugin.handleQuery(query)` (src lines 277-282): strip the query,
try `parse_epoch`, then `parse_datetime`. `parse_datetime` has no
exception handler, so its errors escape to the host as `Except.error`. -/
def handleQuery (q : List Char) (localOffset : Int) : Except String QueryOutcome :=
  let s := stripQuery q
  match parse_epoch s with
  | some o => .ok o
  | none =>
    match parse_datetime s localOffset with
    | .ok (some o) => .ok o
    | .ok none => .ok .notHandled
    | .error e => .error e

end DatetimeSteven

namespace DatetimeSteven

example : daysFromCivil 1970 1 1 = 0 := by decide
example : NFTS_EPOCH = -11644473600 := by decide
example : minDatetimeSeconds = -62135596800 := by decide
example : maxDatetimeSeconds = 253402300799 := by decide
example : toUnixSeconds 2024 1 15 12 30 0 = 1705321800 := by decide
example : toUnixSeconds 9999 12 31 0 0 0 = 253402214400 := by decide
example : toUnixSeconds 1969 12 31 23 59 59 = -1 := by decide
example : guess_unix_unit 1700000000 9999 = .ok 0 := by decide
example : guess_unix_unit 1700000000000 9999 = .ok 3 := by decide
example : parse_unix_timestamp 1 0 = .ok (1, 0, "seconds") := by decide
example : parse_unix_timestamp (-1) 0 = .ok (-1, 0, "seconds") := by decide
example : parse_ntfs_timestamp 0 = .ok (-11644473600, 0) := by decide

/-- Identity `a % b + b * (a // b) = a` for Python floor division and modulo. -/
theorem pymod_add_pydiv (a b : Int) : pymod a b + b * pydiv a b = a :=
  Int.fmod_add_fdiv a b

/-- Python `a % b` is non-negative for a positive divisor. -/
theorem pymod_nonneg (a : Int) {b : Int} (hb : 0 < b) : 0 ≤ pymod a b := by
  unfold pymod
  rw [Int.fmod_eq_emod _ (le_of_lt hb)]
  exact Int.emod_nonneg _ (ne_of_gt hb)

/-- Python `a // b` of a negative numerator by a positive divisor is
negative (floor division). -/
theorem pydiv_neg_of_neg {a b : Int} (ha : a < 0) (hb : 0 < b) : pydiv a b < 0 := by
  by_contra hc
  push_neg at hc
  have h1 := pymod_add_pydiv a b
  have h2 := pymod_nonneg a hb
  nlinarith

/-- Python floor division recovers the quotient from a quotient-remainder
decomposition. -/
theorem pydiv_mul_add {b : Int} (q : Int) {r : Int} (h0 : 0 ≤ r) (h1 : r < b) :
    pydiv (b * q + r) b = q := by
  have hb : 0 < b := lt_of_le_of_lt h0 h1
  unfold pydiv
  rw [Int.fdiv_eq_ediv _ (le_of_lt hb), add_comm,
    Int.add_mul_ediv_left _ _ (ne_of_gt hb), Int.ediv_eq_zero_of_lt h0 h1]
  ring

/-- Lemma: `guessAccepts` at the non-final powers coincides with `decodedOk`
(the `power == 9` escape hatch is off). -/
theorem guessAccepts_eq_decodedOk (t : Int) (p : Nat)
    (hp : p = 0 ∨ p = 3 ∨ p = 6) : guessAccepts t 9999 p = decodedOk t p := by
  rcases hp with h | h | h <;> subst h <;> simp [guessAccepts, decodedOk]

/-- C1 counterexample: at resolution power 0 (seconds), decoding the Unix
timestamp 1 succeeds, but re-encoding the decoded pair yields 10^9, not 1:
`to_unix_timestamp` always emits nanosecond resolution, so the round trip
of the claim fails for powers other than 9. -/
theorem unix_round_trip_fails_at_power_0 :
    parse_unix_timestamp 1 0 = .ok (1, 0, "seconds") ∧
    to_unix_timestamp 1 0 = 1000000000 ∧ (1000000000 : Int) ≠ 1 := by
  refine ⟨by decide, by decide, by decide⟩

/-- C1 (amended): for every integer `t` and resolution power
`p ∈ {0, 3, 6, 9}` such that `parse_unix_timestamp(t, p)` succeeds,
re-encoding the decoded `(instant, nanoseconds)` pair yields
`10^(9-p) * t` — the original timestamp re-expressed in nanoseconds — so
the round trip returns `t` itself exactly at power 9. -/
theorem unix_round_trip_scaled (t : Int) (p : Nat)
    (hp : p = 0 ∨ p = 3 ∨ p = 6 ∨ p = 9) (s ns : Int) (u : String)
    (h : parse_unix_timestamp t p = .ok (s, ns, u)) :
    to_unix_timestamp s ns = 10 ^ (9 - p) * t := by
  simp only [parse_unix_timestamp] at h
  split at h
  · simp only [Except.ok.injEq, Prod.mk.injEq] at h
    obtain ⟨hs, hns, _⟩ := h
    subst hs
    subst hns
    simp only [to_unix_timestamp]
    rcases hp with h | h | h | h <;> subst h <;> norm_num <;>
      [have hh := pymod_add_pydiv t 1;
       have hh := pymod_add_pydiv t 1000;
       have hh := pymod_add_pydiv t 1000000;
       have hh := pymod_add_pydiv t 1000000000] <;> linarith
  · simp at h

/-- C1 witness: the amended round trip, applied at `t = 5`, `p = 9`. -/
theorem unix_round_trip_scaled_witness :
    to_unix_timestamp 0 5 = 10 ^ (9 - 9) * 5 :=
  unix_round_trip_scaled 5 9 (Or.inr (Or.inr (Or.inr rfl))) 0 5 "nanoseconds" (by decide)

/-- C2: for every integer `t` such that `parse_ntfs_timestamp(t)`
succeeds, encoding the decoded instant with its ticks re-expressed as
nanoseconds (`ticks * 100`, as `Plugin.parse_epoch` does) returns exactly
`t`. -/
theorem ntfs_round_trip (t dt ticks : Int)
    (h : parse_ntfs_timestamp t = .ok (dt, ticks)) :
    to_ntfs_timestamp dt (ticks * 100) = t := by
  simp only [parse_ntfs_timestamp] at h
  split at h
  · simp only [Except.ok.injEq, Prod.mk.injEq] at h
    obtain ⟨hdt, hticks⟩ := h
    subst hdt
    subst hticks
    simp only [to_ntfs_timestamp]
    have hc : pydiv (pymod t (10 ^ 7) * 100) 100 = pymod t (10 ^ 7) :=
      Int.mul_fdiv_cancel _ (by norm_num)
    have hh := pymod_add_pydiv t ((10 : Int) ^ 7)
    rw [hc]
    ring_nf
    ring_nf at hh
    linarith
  · simp at h

/-- C2 witness: the NTFS round trip at `t = 1` (one tick past the NTFS
epoch). -/
theorem ntfs_round_trip_witness :
    to_ntfs_timestamp (-11644473600) (1 * 100) = 1 :=
  ntfs_round_trip 1 (-11644473600) 1 (by decide)

/-- C7: the Unix timestamp `-1` at seconds resolution decodes to the
instant 1969-12-31T23:59:59 UTC with sub-second value 0; and in general,
because `parse_unix_timestamp` uses floor division and floor modulo,
every negative timestamp that decodes successfully yields an instant
strictly before the Unix epoch together with a non-negative sub-second
value. -/
theorem unix_negative_floor :
    parse_unix_timestamp (-1) 0 = .ok (toUnixSeconds 1969 12 31 23 59 59, 0, "seconds") ∧
    (∀ (t : Int) (p : Nat) (s ns : Int) (u : String), t < 0 →
      parse_unix_timestamp t p = .ok (s, ns, u) → s < 0 ∧ 0 ≤ ns) := by
  constructor
  · decide
  · intro t p s ns u ht h
    simp only [parse_unix_timestamp] at h
    split at h
    · simp only [Except.ok.injEq, Prod.mk.injEq] at h
      obtain ⟨hs, hns, _⟩ := h
      subst hs
      subst hns
      have hb : (0 : Int) < 10 ^ p := pow_pos (by norm_num) p
      exact ⟨pydiv_neg_of_neg ht hb, mul_nonneg (by positivity) (pymod_nonneg t hb)⟩
    · simp at h

/-- C7 witness: the floor-semantics consequence, applied at `t = -1`,
`p = 0`, with the decoded pair supplied by the concrete first part. -/
theorem unix_negative_floor_witness :
    toUnixSeconds 1969 12 31 23 59 59 < 0 ∧ (0 : Int) ≤ 0 :=
  unix_negative_floor.2 (-1) 0 (toUnixSeconds 1969 12 31 23 59 59) 0 "seconds"
    (by decide) unix_negative_floor.1

/-- C8: `to_ntfs_timestamp` converts nanoseconds to 100ns ticks by floor
division: any sub-100ns remainder `r` is discarded — never rounded — so
`100*q + r` nanoseconds contribute exactly `q` ticks. -/
theorem ntfs_truncates_subns (dt q r : Int) (h0 : 0 ≤ r) (h1 : r < 100) :
    to_ntfs_timestamp dt (100 * q + r) = to_ntfs_timestamp dt 0 + q := by
  simp only [to_ntfs_timestamp]
  have hc : pydiv (100 * q + r) 100 = q := pydiv_mul_add q h0 h1
  have h2 : pydiv 0 100 = 0 := by decide
  rw [hc, h2]
  ring

/-- C5: `guess_unix_unit` tries the powers in ascending order 0, 3, 6, 9
and returns the first (coarsest) power whose floor-divided seconds give a
constructible instant at or before 9999-12-31 UTC: whenever it returns
`p`, either the decoded instant at `p` is within the bound or `p` is the
fallback 9, and every smaller candidate power fails or exceeds the bound;
in particular `guess_unix_unit(1700000000)` infers seconds. -/
theorem guess_unix_unit_coarsest :
    (∀ (t : Int) (p : Nat), guess_unix_unit t 9999 = .ok p →
      (p = 0 ∨ p = 3 ∨ p = 6 ∨ p = 9) ∧
      (decodedOk t p = true ∨ p = 9) ∧
      (([0, 3, 6, 9].filter fun q => decide (q < p)).all fun q => ! decodedOk t q) = true) ∧
    guess_unix_unit 1700000000 9999 = .ok 0 := by
  constructor
  · intro t p h
    have e0 := guessAccepts_eq_decodedOk t 0 (Or.inl rfl)
    have e3 := guessAccepts_eq_decodedOk t 3 (Or.inr (Or.inl rfl))
    have e6 := guessAccepts_eq_decodedOk t 6 (Or.inr (Or.inr rfl))
    simp only [guess_unix_unit] at h
    split_ifs at h with h0 h3 h6 h9
    · simp only [Except.ok.injEq] at h
      subst h
      exact ⟨Or.inl rfl, Or.inl (e0 ▸ h0), by simp⟩
    · simp only [Except.ok.injEq] at h
      subst h
      have d0 : decodedOk t 0 = false := by rw [← e0]; simp [Bool.not_eq_true] at h0; exact h0
      exact ⟨Or.inr (Or.inl rfl), Or.inl (e3 ▸ h3), by simp [List.filter, List.all, d0]⟩
    · simp only [Except.ok.injEq] at h
      subst h
      have d0 : decodedOk t 0 = false := by rw [← e0]; simp [Bool.not_eq_true] at h0; exact h0
      have d3 : decodedOk t 3 = false := by rw [← e3]; simp [Bool.not_eq_true] at h3; exact h3
      exact ⟨Or.inr (Or.inr (Or.inl rfl)), Or.inl (e6 ▸ h6), by simp [List.filter, List.all, d0, d3]⟩
    · simp only [Except.ok.injEq] at h
      subst h
      have d0 : decodedOk t 0 = false := by rw [← e0]; simp [Bool.not_eq_true] at h0; exact h0
      have d3 : decodedOk t 3 = false := by rw [← e3]; simp [Bool.not_eq_true] at h3; exact h3
      have d6 : decodedOk t 6 = false := by rw [← e6]; simp [Bool.not_eq_true] at h6; exact h6
      exact ⟨Or.inr (Or.inr (Or.inr rfl)), Or.inr rfl, by simp [List.filter, List.all, d0, d3, d6]⟩
  · decide

/-- C5 witness: the characterization applied at the claim's example input
1700000000, whose inferred power is 0 (seconds). -/
theorem guess_unix_unit_coarsest_witness :
    ((0 : Nat) = 0 ∨ (0 : Nat) = 3 ∨ (0 : Nat) = 6 ∨ (0 : Nat) = 9) ∧
    (decodedOk 1700000000 0 = true ∨ (0 : Nat) = 9) ∧
    (([0, 3, 6, 9].filter fun q => decide (q < (0 : Nat))).all
      fun q => ! decodedOk 1700000000 q) = true :=
  guess_unix_unit_coarsest.1 1700000000 0 guess_unix_unit_coarsest.2

/-- C8 witness: `ns = 150` contributes exactly 1 tick, not 2. -/
theorem ntfs_truncates_subns_witness :
    to_ntfs_timestamp 0 150 = to_ntfs_timestamp 0 0 + 1 := by
  have h := ntfs_truncates_subns 0 1 50 (by decide) (by decide)
  norm_num at h
  norm_num [h]

/-- Lemma: `ntfsKeywordTail` only ever captures the value of a digit run, which
is non-negative. -/
theorem ntfsKeywordTail_nonneg (cs : List Char) (t : Int)
    (h : ntfsKeywordTail cs = some t) : 0 ≤ t := by
  unfold ntfsKeywordTail at h
  cases hsp : spaces1 cs with
  | none => rw [hsp] at h; simp at h
  | some r =>
    rw [hsp] at h
    simp only [Option.bind_eq_bind, Option.some_bind] at h
    rcases htd : takeDigits r with ⟨ds, rest⟩
    rw [htd] at h
    split_ifs at h
    simp_all
    omega

/-- Lemma: `unixMatch` only ever captures the value of a digit run, which is
non-negative. -/
theorem unixMatch_nonneg (cs : List Char) (t : Int) (p : Option Nat)
    (h : unixMatch cs = some (t, p)) : 0 ≤ t := by
  unfold unixMatch at h
  rcases htd : takeDigits cs with ⟨ds, rest⟩
  rw [htd] at h
  dsimp only at h
  by_cases he : ds.isEmpty
  · rw [if_pos he] at h
    exact absurd h (by simp)
  · rw [if_neg he] at h
    obtain ⟨q, _, hfq⟩ := Option.map_eq_some'.mp h
    have ht : ((digitsToNat ds : Nat) : Int) = t := congrArg Prod.fst hfq
    exact ht ▸ Int.natCast_nonneg _

/-- C3: the source for the calendar branch has no exception handler, so
the claim fails on a calendar-form input with an invalid date: the query
string of twelve characters 2024-13-01 matches `RE_DATETIME` with month
capture 13, `datetime(2024, 13, 1)` raises `ValueError`, and the
exception escapes `handleQuery` to the host instead of being reported as
unhandled or as an error item. -/
theorem handleQuery_raises_on_month_13 :
    handleQuery "2024-13-01".data 0 = .error "ValueError: month must be in 1..12" := by
  decide

/-- C4: for the query 2024-01-15 12:00:00 +0500 the source calls
`.astimezone` on a *naive* datetime, which presumes the wall-clock fields
lie in the process's local zone: with local offset UTC+0 the instant is
the wall time itself, with local offset UTC+10 (36000 s) it is ten hours
earlier — the two runs disagree, and neither equals the instant the claim
prescribes (wall time minus the literal +05:00 = 18000 s offset). -/
theorem fixed_offset_depends_on_local_zone :
    handleQuery "2024-01-15 12:00:00 +0500".data 0 =
      .ok (.dateInstant (toUnixSeconds 2024 1 15 12 0 0) 0 false) ∧
    handleQuery "2024-01-15 12:00:00 +0500".data 36000 =
      .ok (.dateInstant (toUnixSeconds 2024 1 15 12 0 0 - 36000) 0 false) ∧
    toUnixSeconds 2024 1 15 12 0 0 ≠ toUnixSeconds 2024 1 15 12 0 0 - 18000 ∧
    toUnixSeconds 2024 1 15 12 0 0 - 36000 ≠ toUnixSeconds 2024 1 15 12 0 0 - 18000 := by
  refine ⟨by decide, by decide, by decide, by decide⟩

/-- C6: parsing 2024-01-15 12:30:00:123456789 (no timezone component)
interprets the fields as UTC for every value of the process-local offset,
yielding the instant 2024-01-15T12:30:00 UTC (Unix seconds 1705321800)
with 123456789 nanoseconds, whose Unix-timestamp output is exactly
1705321800123456789. -/
theorem no_tz_is_utc (localOffset : Int) :
    handleQuery "2024-01-15 12:30:00:123456789".data localOffset =
      .ok (.dateInstant (toUnixSeconds 2024 1 15 12 30 0) 123456789 false) ∧
    toUnixSeconds 2024 1 15 12 30 0 = 1705321800 ∧
    to_unix_timestamp (toUnixSeconds 2024 1 15 12 30 0) 123456789 = 1705321800123456789 := by
  refine ⟨by rfl, by decide, by decide⟩

/-- C6 witness: the scenario evaluated at a non-UTC local offset. -/
theorem no_tz_is_utc_witness :
    handleQuery "2024-01-15 12:30:00:123456789".data 3600 =
      .ok (.dateInstant (toUnixSeconds 2024 1 15 12 30 0) 123456789 false) :=
  (no_tz_is_utc 3600).1

/-- C9 counterexample: in 2024-01-15 12:30:00:12345 the sub-second
portion :12345 matches no grammar rule (neither 9 nor 7 digits), yet the
query is accepted: `RE_DATETIME` is an unanchored prefix match (unlike
the `$`-anchored epoch regexes), so the match stops after the seconds
capture and the trailing :12345 is silently dropped — the outcome is
identical to that of the truncated query 2024-01-15 12:30:00. -/
theorem trailing_data_dropped :
    handleQuery "2024-01-15 12:30:00:12345".data 0 =
      handleQuery "2024-01-15 12:30:00".data 0 ∧
    handleQuery "2024-01-15 12:30:00:12345".data 0 =
      .ok (.dateInstant (toUnixSeconds 2024 1 15 12 30 0) 0 false) := by
  refine ⟨by decide, by decide⟩

/-- C9 (amended): if the date portion does not match, `parse_datetime`
returns "not handled" with no error; but accepted input is not fully
consumed: the match is an unanchored prefix match, so trailing text that
cannot be parsed as time, sub-second or timezone is silently ignored
rather than causing rejection. -/
theorem date_prefix_match_behavior :
    (∀ (cs : List Char) (localOffset : Int), reDatetimeMatch cs = none →
      parse_datetime cs localOffset = .ok none) ∧
    parse_datetime "2024-01-15 12:30:00:12345".data 0 =
      parse_datetime "2024-01-15 12:30:00".data 0 ∧
    parse_datetime "2024-01-15 12:30:00:12345".data 0 =
      .ok (some (.dateInstant (toUnixSeconds 2024 1 15 12 30 0) 0 false)) := by
  refine ⟨?_, by decide, by decide⟩
  intro cs localOffset h
  simp [parse_datetime, h]

/-- C9 witness: the no-match half applied at a concrete non-matching
input. -/
theorem date_prefix_match_behavior_witness :
    parse_datetime "hello".data 0 = .ok none :=
  date_prefix_match_behavior.1 "hello".data 0 (by decide)

/-- C10: only unsigned digit sequences are classified as timestamps: a
stripped query beginning with a sign character matches neither epoch
regex, so `parse_epoch` returns False for it and the query falls through
to the calendar branch; moreover any integer either epoch regex does
capture is non-negative, so the codecs are never invoked on a negative
timestamp from string input. -/
theorem parse_epoch_rejects_signed :
    (∀ (c : Char) (cs : List Char), c = '-' ∨ c = '+' → parse_epoch (c :: cs) = none) ∧
    (∀ (cs : List Char) (t : Int), ntfsMatch cs = some t → 0 ≤ t) ∧
    (∀ (cs : List Char) (t : Int) (p : Option Nat), unixMatch cs = some (t, p) → 0 ≤ t) := by
  refine ⟨?_, ?_, ?_⟩
  · intro c cs hc
    rcases hc with h | h <;> subst h
    · have hN : charEqCI 'N' '-' = false := by decide
      have hL : charEqCI 'L' '-' = false := by decide
      have hD : Char.isDigit '-' = false := by decide
      simp [parse_epoch, ntfsMatch, unixMatch, takeDigits, stripCI, hN, hL, hD]
    · have hN : charEqCI 'N' '+' = false := by decide
      have hL : charEqCI 'L' '+' = false := by decide
      have hD : Char.isDigit '+' = false := by decide
      simp [parse_epoch, ntfsMatch, unixMatch, takeDigits, stripCI, hN, hL, hD]
  · intro cs t h
    unfold ntfsMatch at h
    cases h1 : (stripCI ['N', 'T'] cs).bind ntfsKeywordTail with
    | some v =>
      rw [h1] at h
      simp only [Option.some.injEq] at h
      subst h
      cases hs : stripCI ['N', 'T'] cs with
      | none => rw [hs] at h1; simp at h1
      | some r =>
        rw [hs] at h1
        simp only [Option.some_bind] at h1
        exact ntfsKeywordTail_nonneg r v h1
    | none =>
      rw [h1] at h
      cases h2 : (stripCI ['N', 'T', 'F', 'S'] cs).bind ntfsKeywordTail with
      | some v =>
        rw [h2] at h
        simp only [Option.some.injEq] at h
        subst h
        cases hs : stripCI ['N', 'T', 'F', 'S'] cs with
        | none => rw [hs] at h2; simp at h2
        | some r =>
          rw [hs] at h2
          simp only [Option.some_bind] at h2
          exact ntfsKeywordTail_nonneg r v h2
      | none =>
        rw [h2] at h
        cases hs : stripCI ['L', 'D', 'A', 'P'] cs with
        | none => rw [hs] at h; simp at h
        | some r =>
          rw [hs] at h
          simp only [Option.some_bind] at h
          exact ntfsKeywordTail_nonneg r t h
  · exact unixMatch_nonneg

/-- C10 witness: the signed-input half applied at the stripped query
-1, which `parse_epoch` declines to handle. -/
theorem parse_epoch_rejects_signed_witness :
    parse_epoch ('-' :: "1".data) = none :=
  parse_epoch_rejects_signed.1 '-' "1".data (Or.inl rfl)

end DatetimeSteven
